import Mathlib

/-!
# Verification of the pokemon-rel protocol/session core

A shallow embedding, in Lean 4, of the protocol and analysis core of the
`pokemon-rel` repository (`src/config.py`, `src/image_processing.py`,
`src/network.py`, `src/loop_detection.py`, `src/reward_system.py`), together
with theorems settling the behavioural properties stated in the project
specification.

Modelling conventions:
* Bytes are natural numbers (`ℕ`), byte strings are `List ℕ`.
* Python `float` arithmetic on pixel data is modelled exactly over `ℚ`
  (the properties proved here are threshold comparisons with wide margins,
  not statements about rounding).
* Python `hash` of a raw pixel buffer is an unspecified injective-up-to-
  collision map; fingerprints are therefore modelled by the hashed content
  itself (the downsampled pixel sample), and the loop detector — which only
  ever compares fingerprints for equality — is stated over an arbitrary
  fingerprint type with decidable equality.
* Exceptions (`ConnectionError` raises) become `Except`/`Option` results.
-/

namespace PokemonRel

/-! ## Configuration constants (src/config.py) -/

def LISTEN_PORT : ℕ := 5555
def IMAGE_WIDTH : ℕ := 256
def IMAGE_HEIGHT : ℕ := 384
def TOP_SCREEN_HEIGHT : ℕ := 192
def BYTES_PER_PIXEL : ℕ := 4
def RAW_IMAGE_SIZE : ℕ := IMAGE_WIDTH * IMAGE_HEIGHT * BYTES_PER_PIXEL

def MAX_STEPS_STILL : ℕ := 150
def LOOP_DETECTION_WINDOW : ℕ := 8
def FRAME_HISTORY_SIZE : ℕ := 20
def ACTION_HISTORY_SIZE : ℕ := 15
def ACTION_LOOP_THRESHOLD : ℕ := 4
def MAX_CONSECUTIVE_LOOPS : ℤ := 3

def MAX_CONNECTION_ATTEMPTS : ℕ := 10
def MAX_SEND_ATTEMPTS : ℕ := 3

/-! ## FrameCodec (src/image_processing.py)

`gd2_to_rgb` treats the incoming blob as raw BGRA data preceded by a GD-2
header: it validates `len(blob) ≥ 256*384*4`, takes the last `256*384*4`
bytes, reshapes them row-major to `384 × 256 × 4`, and selects source
channels `[3, 2, 1]`.  The decoded image is modelled as a function from
(row, column, output-channel) to the byte value; out-of-range indices give
the default byte `0`, exactly as `List.getD` does.  The `reshape` in the
source cannot fail because the slice has exactly the right length, so the
only error path is the length check, which raises (`ConnectionError`,
the malformed-frame error of the spec). -/

inductive FrameError where
  | MalformedFrame
deriving DecidableEq

/-- Output-channel `j` of the decoded RGB image is source channel
`[3, 2, 1][j]` of the 4-channel BGRA data (`arr[..., [3, 2, 1]]`). -/
def srcChannel : Fin 3 → ℕ
  | 0 => 3
  | 1 => 2
  | 2 => 1

/-- `gd2_to_rgb` from src/image_processing.py. -/
def gd2_to_rgb (gd_bytes : List ℕ) : Except FrameError (ℕ → ℕ → Fin 3 → ℕ) :=
  if gd_bytes.length < RAW_IMAGE_SIZE then
    .error .MalformedFrame
  else
    -- take the last RAW_IMAGE_SIZE bytes
    let raw := gd_bytes.drop (gd_bytes.length - RAW_IMAGE_SIZE)
    -- row-major reshape to IMAGE_HEIGHT × IMAGE_WIDTH × BYTES_PER_PIXEL
    let arr := fun (r c ch : ℕ) =>
      raw.getD ((r * IMAGE_WIDTH + c) * BYTES_PER_PIXEL + ch) 0
    .ok (fun r c j => arr r c (srcChannel j))

/-- **C1.** For every input blob of length `W*H*4 + k` (W = 256, H = 384,
4 source channels, k ≥ 0), the decoder succeeds and uses exactly the last
`W*H*4` bytes of the blob: the output pixel at row `r`, column `c`, output
channel `j` is the blob byte at offset `k + (r*W + c)*4 + [3,2,1][j]`
(row-major reshape into H rows × W columns × 4 channels, selecting source
channels in order [3,2,1], dropping channel 0).  Decoding the same blob
twice yields identical output. -/
theorem gd2_decode_uses_last_raw_bytes (blob : List ℕ) (k : ℕ)
    (hlen : blob.length = RAW_IMAGE_SIZE + k) :
    ∃ img, gd2_to_rgb blob = .ok img ∧
      (∀ r c j, img r c j =
        blob.getD (k + ((r * IMAGE_WIDTH + c) * BYTES_PER_PIXEL + srcChannel j)) 0) ∧
      gd2_to_rgb blob = gd2_to_rgb blob := by
  have hge : ¬ blob.length < RAW_IMAGE_SIZE := by omega
  have hk : blob.length - RAW_IMAGE_SIZE = k := by omega
  refine ⟨fun r c j =>
      (blob.drop k).getD ((r * IMAGE_WIDTH + c) * BYTES_PER_PIXEL + srcChannel j) 0,
    ?_, ?_, rfl⟩
  · simp only [gd2_to_rgb, if_neg hge, hk]
  · intro r c j
    simp only [List.getD_eq_getElem?_getD, List.getElem?_drop]

/-- Witness for C1: a concrete blob consisting of `RAW_IMAGE_SIZE` zero
bytes (k = 0) decodes successfully with the stated pixel formula. -/
theorem gd2_decode_uses_last_raw_bytes_witness :
    ∃ img, gd2_to_rgb (List.replicate RAW_IMAGE_SIZE 0) = .ok img ∧
      (∀ r c j, img r c j =
        (List.replicate RAW_IMAGE_SIZE 0).getD
          (0 + ((r * IMAGE_WIDTH + c) * BYTES_PER_PIXEL + srcChannel j)) 0) ∧
      gd2_to_rgb (List.replicate RAW_IMAGE_SIZE 0) =
        gd2_to_rgb (List.replicate RAW_IMAGE_SIZE 0) :=
  gd2_decode_uses_last_raw_bytes (List.replicate RAW_IMAGE_SIZE 0) 0 (by simp)

/-- **C2.** Every input blob of length strictly less than `W*H*4` fails to
decode with the malformed-frame error, producing no output image. -/
theorem gd2_decode_short_blob_fails (blob : List ℕ)
    (hlen : blob.length < RAW_IMAGE_SIZE) :
    gd2_to_rgb blob = .error .MalformedFrame := by
  simp only [gd2_to_rgb, if_pos hlen]

/-- Witness for C2: the empty blob is rejected as malformed. -/
theorem gd2_decode_short_blob_fails_witness :
    gd2_to_rgb [] = .error .MalformedFrame :=
  gd2_decode_short_blob_fails [] (by decide)

/-! ## ConnectionSession (src/network.py)

The wire-protocol state is modelled explicitly: the incoming byte stream is a
list of chunks (the successive non-empty results of `conn.recv`), and the
carry-over `_sync_buffer` is a byte list.  The outbound initial action send
and log statements have no effect on the synchronization result and are not
modelled. -/

/-- The 3-byte literal tag `b"GD2"` (ASCII 71, 68, 50). -/
def TAG : List ℕ := [71, 68, 50]

def MAX_SEARCH_BYTES : ℕ := 2000000

/-- `bytearray.find(b'GD2')` : index of the first occurrence of the 3-byte
tag in `l`, or `none` (Python's `-1`) when absent. -/
def findTag : List ℕ → Option ℕ
  | [] => none
  | a :: rest =>
    if (a :: rest).take 3 = TAG then some 0
    else (findTag rest).map (· + 1)

/-- The search loop of `NetworkManager._synchronize_connection`: reads
chunks while fewer than `max_search_bytes` bytes have been searched, extends
`search_buffer`, returns the buffer from the first tag occurrence onward as
the new `_sync_buffer` on success, and otherwise trims the buffer to its
last 2 bytes whenever it exceeds 2048 bytes.  An empty chunk (closed
connection) or an exhausted stream / search bound yields `none`
(synchronization abandoned, `_sync_buffer` cleared). -/
def syncLoop : List (List ℕ) → List ℕ → ℕ → Option (List ℕ)
  | [], _, _ => none
  | chunk :: rest, search_buffer, bytes_searched =>
    if bytes_searched < MAX_SEARCH_BYTES then
      if chunk = [] then none
      else
        let buf := search_buffer ++ chunk
        match findTag buf with
        | some pos => some (buf.drop pos)
        | none =>
          syncLoop rest
            (if buf.length > 2048 then buf.drop (buf.length - 2) else buf)
            (bytes_searched + chunk.length)
    else none

/-- `NetworkManager._synchronize_connection`, starting from an empty search
buffer and zero bytes searched; on success the result is the retained
carry-over `_sync_buffer`. -/
def synchronize_connection (chunks : List (List ℕ)) : Option (List ℕ) :=
  syncLoop chunks [] 0

/-- `NetworkManager.receive_exact_bytes(n)`: drain the carry-over
`_sync_buffer` first, then read the remainder from the stream (modelled as
the flat list of bytes the socket will deliver).  Returns
`(data, sync_buffer', stream')`, or `none` if the stream ends short. -/
def receive_exact_bytes (sync_buffer stream : List ℕ) (n : ℕ) :
    Option (List ℕ × List ℕ × List ℕ) :=
  let bytes_to_take := min sync_buffer.length n
  let fromBuf := sync_buffer.take bytes_to_take
  let fromStream := stream.take (n - bytes_to_take)
  if fromBuf.length + fromStream.length = n then
    some (fromBuf ++ fromStream, sync_buffer.drop bytes_to_take,
      stream.drop (n - bytes_to_take))
  else none

/-- If a byte list ending in `G` contains no tag, prepending it to
`GD2 ++ post` puts the first tag occurrence exactly at its length. -/
theorem findTag_pre_g (pre post : List ℕ) (hfree : findTag (pre ++ [71]) = none) :
    findTag (pre ++ 71 :: 68 :: 50 :: post) = some pre.length := by
  induction pre with
  | nil => simp [findTag, TAG]
  | cons a pre ih =>
    rw [List.cons_append] at hfree
    rw [findTag] at hfree
    by_cases htag : ((a :: (pre ++ [71])).take 3 = TAG)
    · rw [if_pos htag] at hfree; exact absurd hfree (by simp)
    · rw [if_neg htag] at hfree
      have hfree' : findTag (pre ++ [71]) = none := by
        cases h : findTag (pre ++ [71]) with
        | none => rfl
        | some v => rw [h] at hfree; simp at hfree
      have hgoal : ¬ ((a :: (pre ++ 71 :: 68 :: 50 :: post)).take 3 = TAG) := by
        match pre with
        | [] => simp [TAG]
        | [b] => simp [TAG]
        | b :: c :: pre' =>
          intro hc
          apply htag
          simp only [List.cons_append, List.take] at hc ⊢
          exact hc
      rw [List.cons_append, findTag, if_neg hgoal, ih hfree']
      simp

/-- `bytearray.find` returns the index of an occurrence: the 3 bytes at the
returned position are the tag. -/
theorem findTag_drop_take (l : List ℕ) (pos : ℕ) (h : findTag l = some pos) :
    (l.drop pos).take 3 = TAG := by
  induction l generalizing pos with
  | nil => simp [findTag] at h
  | cons a rest ih =>
    rw [findTag] at h
    by_cases htag : ((a :: rest).take 3 = TAG)
    · rw [if_pos htag] at h
      cases h
      rw [List.drop_zero]
      exact htag
    · rw [if_neg htag] at h
      cases hq : findTag rest with
      | none => rw [hq] at h; simp at h
      | some q =>
        rw [hq] at h
        simp at h
        subst h
        rw [List.drop_succ_cons]
        exact ih q hq

/-- Draining a carry-over buffer that starts with the tag: the 3-byte exact
read returns the tag and retains exactly the bytes following it. -/
theorem receive_exact_tag (rest stream : List ℕ) :
    receive_exact_bytes (TAG ++ rest) stream 3 = some (TAG, rest, stream) := by
  simp only [receive_exact_bytes, TAG]
  norm_num

/-- `tagAt l q`: the 3-byte tag occurs in `l` at position `q`. -/
def tagAt (l : List ℕ) (q : ℕ) : Prop := (l.drop q).take 3 = TAG

/-- `bytearray.find` succeeds whenever some occurrence exists. -/
theorem tagAt_findTag (l : List ℕ) (q : ℕ) (h : tagAt l q) :
    findTag l ≠ none := by
  induction l generalizing q with
  | nil =>
    rw [tagAt, List.drop_nil] at h
    exact absurd h (by decide)
  | cons a rest ih =>
    rw [findTag]
    by_cases htag : ((a :: rest).take 3 = TAG)
    · rw [if_pos htag]
      exact Option.some_ne_none 0
    · rw [if_neg htag]
      cases q with
      | zero =>
        rw [tagAt, List.drop_zero] at h
        exact absurd h htag
      | succ q =>
        rw [tagAt, List.drop_succ_cons] at h
        intro hmap
        exact ih q h (Option.map_eq_none.mp hmap)

/-- The synchronization scan succeeds whenever the stream still to come
contains the tag and stays within the search-byte bound.  The invariant:
the search buffer is the suffix of the `consumed` bytes from position `k`
on, where either nothing was ever trimmed (`k = 0`) or at least the last
2 consumed bytes are retained (`k + 2 ≤ consumed.length`) — the trim in
the source keeps exactly the last 2 bytes so that no tag occurrence
spanning a chunk boundary is ever lost — and no tag occurs in the consumed
bytes (otherwise the scan would already have returned). -/
theorem syncLoop_succeeds_bound (cs : List (List ℕ)) :
    ∀ (consumed : List ℕ) (k : ℕ),
      (∀ c ∈ cs, c ≠ []) →
      consumed.length + (cs.flatten).length ≤ MAX_SEARCH_BYTES →
      k ≤ consumed.length →
      (k = 0 ∨ k + 2 ≤ consumed.length) →
      findTag consumed = none →
      findTag (consumed ++ cs.flatten) ≠ none →
      ∃ rest,
        syncLoop cs (consumed.drop k) consumed.length = some (TAG ++ rest) := by
  induction cs with
  | nil =>
    intro consumed k _ _ _ _ hcons htag
    rw [List.flatten_nil, List.append_nil] at htag
    exact absurd hcons htag
  | cons c cs ih =>
    intro consumed k hne hbound hk hk2 hcons htag
    have hcne : c ≠ [] := hne c (List.mem_cons_self c cs)
    have hclen : 1 ≤ c.length := by
      cases c with
      | nil => exact absurd rfl hcne
      | cons x xs => simp
    rw [List.flatten_cons, List.length_append] at hbound
    rw [syncLoop,
      if_pos (show consumed.length < MAX_SEARCH_BYTES by omega),
      if_neg hcne]
    have hbuf : consumed.drop k ++ c = (consumed ++ c).drop k :=
      (List.drop_append_of_le_length hk).symm
    cases hfind : findTag (consumed.drop k ++ c) with
    | some pos =>
      refine ⟨((consumed.drop k ++ c).drop pos).drop 3, ?_⟩
      simp only [hfind]
      rw [← findTag_drop_take (consumed.drop k ++ c) pos hfind,
        List.take_append_drop 3 ((consumed.drop k ++ c).drop pos)]
    | none =>
      -- no tag in the newly consumed bytes either
      have hcc : findTag (consumed ++ c) = none := by
        cases hf : findTag (consumed ++ c) with
        | none => rfl
        | some pos =>
          exfalso
          have hocc := findTag_drop_take (consumed ++ c) pos hf
          by_cases hpos : pos + 3 ≤ consumed.length
          · -- the occurrence would lie wholly inside `consumed`
            have hdrop : (consumed ++ c).drop pos =
                consumed.drop pos ++ c :=
              List.drop_append_of_le_length (by omega)
            have htake : ((consumed ++ c).drop pos).take 3 =
                (consumed.drop pos).take 3 := by
              rw [hdrop]
              exact List.take_append_of_le_length
                (by rw [List.length_drop]; omega)
            exact tagAt_findTag consumed pos
              (by rw [tagAt, ← htake, hocc]) (by rw [hcons])
          · -- the occurrence ends in `c`, so it is visible in the buffer
            have hkpos : k ≤ pos := by omega
            have hvis : tagAt (consumed.drop k ++ c) (pos - k) := by
              rw [tagAt, hbuf, List.drop_drop,
                show k + (pos - k) = pos by omega, hocc]
            exact tagAt_findTag _ _ hvis (by rw [hfind])
      simp only [hfind]
      have hlen2 : (consumed.drop k ++ c).length =
          (consumed ++ c).length - k := by
        rw [hbuf, List.length_drop]
      have hclen2 : (consumed ++ c).length = consumed.length + c.length :=
        List.length_append consumed c
      by_cases htrim : (consumed.drop k ++ c).length > 2048
      · rw [if_pos htrim]
        have hdrop2 : (consumed.drop k ++ c).drop
            ((consumed.drop k ++ c).length - 2) =
            (consumed ++ c).drop ((consumed ++ c).length - 2) := by
          rw [hbuf, List.drop_drop]
          congr 1
          rw [List.length_drop]
          omega
        rw [hdrop2, show consumed.length + c.length =
          (consumed ++ c).length from hclen2.symm]
        refine ih (consumed ++ c) ((consumed ++ c).length - 2)
          (fun d hd => hne d (List.mem_cons_of_mem c hd))
          (by omega) (by omega) (by omega) hcc ?_
        rw [List.append_assoc, ← List.flatten_cons]
        exact htag
      · rw [if_neg htrim, hbuf, show consumed.length + c.length =
          (consumed ++ c).length from hclen2.symm]
        refine ih (consumed ++ c) k
          (fun d hd => hne d (List.mem_cons_of_mem c hd))
          (by omega) (by omega) (by omega) hcc ?_
        rw [List.append_assoc, ← List.flatten_cons]
        exact htag

/-- **C3.** Synchronization on a chunked incoming stream: (1) for every
chunked stream of non-empty reads that contains the 3-byte tag `"GD2"`
within the 2,000,000-byte search bound, synchronization succeeds —
regardless of how the tag falls across chunk boundaries, and including
streams long enough for the 2048-byte buffer trim to kick in — and the
retained carry-over starts with the tag, so that the next 3-byte
exact-length read consumes the tag and leaves exactly the bytes following
it; (2) in particular, for the tag split across two reads as "…G" then
"D2…" (arbitrary tag-free prefix, arbitrary continuation), synchronization
succeeds with exactly the bytes following the tag retained after the tag
read. -/
theorem sync_tag_within_bound :
    (∀ (cs : List (List ℕ)) (stream : List ℕ),
      (∀ c ∈ cs, c ≠ []) → (cs.flatten).length ≤ MAX_SEARCH_BYTES →
      findTag cs.flatten ≠ none →
      ∃ rest, synchronize_connection cs = some (TAG ++ rest) ∧
        receive_exact_bytes (TAG ++ rest) stream 3 = some (TAG, rest, stream)) ∧
    (∀ (pre post stream : List ℕ),
      findTag (pre ++ [71]) = none → pre.length < 2048 →
      synchronize_connection [pre ++ [71], [68, 50] ++ post] =
        some (TAG ++ post) ∧
      receive_exact_bytes (TAG ++ post) stream 3 = some (TAG, post, stream)) := by
  constructor
  · intro cs stream hne hlen htag
    obtain ⟨rest, hsync⟩ := syncLoop_succeeds_bound cs [] 0 hne
      (by simpa using hlen) (by omega) (Or.inl rfl) rfl (by simpa using htag)
    exact ⟨rest, hsync, receive_exact_tag rest stream⟩
  · intro pre post stream hfree hlen
    have hfind2 : findTag ((pre ++ [71]) ++ ([68, 50] ++ post)) =
        some pre.length := by
      have hsplit : (pre ++ [71]) ++ ([68, 50] ++ post) =
          pre ++ 71 :: 68 :: 50 :: post := by
        simp
      rw [hsplit, findTag_pre_g pre post hfree]
    have hdrop : ((pre ++ [71]) ++ ([68, 50] ++ post)).drop pre.length =
        TAG ++ post := by
      have hsplit : (pre ++ [71]) ++ ([68, 50] ++ post) =
          pre ++ (TAG ++ post) := by
        simp [TAG]
      rw [hsplit, List.drop_left]
    refine ⟨?_, receive_exact_tag post stream⟩
    have htrim : ¬ (([] ++ (pre ++ [71])).length > 2048) := by
      simp only [List.nil_append, List.length_append, List.length_cons,
        List.length_nil]
      omega
    have hb2 : 0 + (pre ++ [71]).length < MAX_SEARCH_BYTES := by
      simp only [List.length_append, List.length_cons, List.length_nil,
        MAX_SEARCH_BYTES]
      omega
    rw [synchronize_connection, syncLoop,
      if_pos (by decide : (0:ℕ) < MAX_SEARCH_BYTES),
      if_neg (by simp : ¬ (pre ++ [71] = []))]
    simp only [List.nil_append] at htrim ⊢
    rw [hfree]
    simp only [if_neg htrim]
    rw [syncLoop, if_pos hb2, if_neg (by simp : ¬ ([68, 50] ++ post = []))]
    simp only [hfind2, hdrop]

/-- Witness for C3: a three-chunk stream splitting the tag as
"…G" / "D" / "2…" synchronizes, and the concrete two-chunk "G"-then-"D2"
split retains exactly the two payload bytes after the tag read. -/
theorem sync_tag_within_bound_witness :
    (∃ rest, synchronize_connection [[1, 71], [68], [50, 9]] =
        some (TAG ++ rest) ∧
      receive_exact_bytes (TAG ++ rest) [5] 3 = some (TAG, rest, [5])) ∧
    synchronize_connection [[1, 2, 3, 71], [68, 50, 9, 9]] =
      some (TAG ++ [9, 9]) ∧
    receive_exact_bytes (TAG ++ [9, 9]) [5] 3 = some (TAG, [9, 9], [5]) :=
  ⟨sync_tag_within_bound.1 [[1, 71], [68], [50, 9]] [5]
      (by decide) (by decide) (by decide),
   sync_tag_within_bound.2 [1, 2, 3] [9, 9] [5] (by decide) (by decide)⟩

/-! ### Accept loop (`NetworkManager.wait_for_connection`)

One accept attempt either succeeds, times out (`socket.timeout`, caught and
retried), or fails with another exception (caught, retried after a delay).
The cooperative `shutdown_requested` flag is modelled as a predicate on the
number of attempts already made, checked at the top of the loop exactly as
in the source.  The simulation is driven by a finite list of attempt
outcomes; exhausting the list while the loop would still run is reported as
`pending` (the real loop would block in `accept`), which no theorem relies
on. -/

inductive AcceptOutcome where
  | success
  | timeout
  | err
deriving DecidableEq

inductive ConnResult where
  /-- `wait_for_connection` returned `True`. -/
  | connected
  /-- the loop exited with the shutdown flag set: returns `False` cleanly. -/
  | shutdownAbort
  /-- attempts exhausted without shutdown: raises `ConnectionError`
  ("Failed to establish connection after maximum attempts"). -/
  | exhausted
  /-- outcome list exhausted while the loop would still run. -/
  | pending
deriving DecidableEq

/-- The retry loop of `wait_for_connection`: while
`connection_attempts < MAX_CONNECTION_ATTEMPTS and not shutdown_requested`,
perform one accept attempt (timeouts and errors both continue the loop);
afterwards return `False` if shutdown was requested, else raise. -/
def waitLoop (shutdown : ℕ → Bool) :
    List AcceptOutcome → ℕ → ConnResult
  | outcomes, connection_attempts =>
    if connection_attempts < MAX_CONNECTION_ATTEMPTS ∧
        ¬ shutdown connection_attempts then
      match outcomes with
      | [] => .pending
      | o :: rest =>
        match o with
        | .success => .connected
        | .timeout => waitLoop shutdown rest (connection_attempts + 1)
        | .err => waitLoop shutdown rest (connection_attempts + 1)
    else
      if shutdown connection_attempts then .shutdownAbort else .exhausted

/-- `NetworkManager.wait_for_connection` over a simulated schedule of accept
outcomes and a shutdown-flag history. -/
def wait_for_connection (shutdown : ℕ → Bool)
    (outcomes : List AcceptOutcome) : ConnResult :=
  waitLoop shutdown outcomes 0

/-- **C8.** The accept loop terminates: a schedule of
`MAX_CONNECTION_ATTEMPTS = 10` consecutive accept timeouts with the
shutdown flag never set ends in the fatal `ConnectionError` ("connection
exhausted") rather than an infinite retry; whereas if the shutdown flag
becomes set after `j < 10` attempts (checked between attempts), the loop
aborts early and cleanly returns failure without raising. -/
theorem accept_loop_exhaustion_bound :
    wait_for_connection (fun _ => false)
      (List.replicate MAX_CONNECTION_ATTEMPTS .timeout) = .exhausted ∧
    ∀ j, j < MAX_CONNECTION_ATTEMPTS →
      wait_for_connection (fun i => decide (j ≤ i))
        (List.replicate MAX_CONNECTION_ATTEMPTS .timeout) = .shutdownAbort := by
  constructor
  · decide
  · decide

/-- Witness for C8: shutdown requested after 3 attempts aborts cleanly. -/
theorem accept_loop_exhaustion_bound_witness :
    wait_for_connection (fun i => decide (3 ≤ i))
      (List.replicate MAX_CONNECTION_ATTEMPTS .timeout) = .shutdownAbort :=
  accept_loop_exhaustion_bound.2 3 (by decide)

/-! ## LoopGuard (src/loop_detection.py)

`LoopDetector` stores frame fingerprints (`hash(obs[::4, ::4].tobytes())`)
and recent actions.  Python `hash` values are only ever compared for
equality, so the detector is stated over an arbitrary fingerprint type `α`
with decidable equality; `consecutive_loops` and `steps_without_movement`
are Python ints (`ℤ`) so that their non-negativity is a real invariant, and
the escalation penalty is a `float` modelled as `ℚ`.  The `action_names`
list and the `print` logging affect no state and are not modelled;
`_detect_movement_loops` is the source's placeholder that always returns
`0.0`. -/

structure LoopState (α : Type) where
  frame_history : List α
  recent_actions : List ℕ
  consecutive_loops : ℤ
  loop_penalty_escalation : ℚ
  last_loop_detection : ℕ
  steps_without_movement : ℤ
deriving DecidableEq

/-- `LoopDetector.__init__`: empty histories, zero counters. -/
def LoopState.init {α : Type} : LoopState α :=
  ⟨[], [], 0, 0, 0, 0⟩

/-- `LoopDetector.reset`: clears all loop detection state. -/
def LoopState.reset {α : Type} (_s : LoopState α) : LoopState α :=
  LoopState.init

/-- `max(frame_counts.values())` where `frame_counts` maps each fingerprint
in `recent_frames` to its number of occurrences: the maximal repeat count
of any fingerprint in the window. -/
def maxRepeats {α : Type} [DecidableEq α] (recent_frames : List α) : ℕ :=
  (recent_frames.map (fun h => recent_frames.count h)).foldr max 0

/-- The A-B-A-B alternation test on the last four fingerprints:
`recent[-4] == recent[-2] and recent[-3] == recent[-1] and
recent[-4] != recent[-3]`. -/
def altPattern {α : Type} [DecidableEq α] (recent_frames : List α) : Bool :=
  match recent_frames.drop (recent_frames.length - 4) with
  | [a, b, c, d] => decide (a = c ∧ b = d ∧ a ≠ b)
  | _ => false

/-- `LoopDetector._detect_visual_loops`: once the history holds at least
`LOOP_DETECTION_WINDOW = 8` fingerprints, inspect the last 8: subtract 0.3
when some fingerprint repeats ≥ 3 times, a further 0.5 when it repeats
≥ 4 times, and a separate 0.2 when the last four alternate A-B-A-B.
(The `frame_counter` parameter of the source only gates logging.) -/
def detect_visual_loops {α : Type} [DecidableEq α] (frame_history : List α) : ℚ :=
  if LOOP_DETECTION_WINDOW ≤ frame_history.length then
    let recent_frames :=
      frame_history.drop (frame_history.length - LOOP_DETECTION_WINDOW)
    let repeatPenalty : ℚ :=
      if 3 ≤ maxRepeats recent_frames then
        if 4 ≤ maxRepeats recent_frames then -(3/10) - 1/2 else -(3/10)
      else 0
    let alternationPenalty : ℚ :=
      if 4 ≤ recent_frames.length ∧ altPattern recent_frames then -(1/5) else 0
    repeatPenalty + alternationPenalty
  else 0

/-- `LoopDetector.detect_and_penalize_loops`: push the current frame
fingerprint into the bounded history, run the visual detector (the movement
detector is the source's placeholder returning 0.0), and update the
consecutive-loop counter and escalation penalty. -/
def detect_and_penalize_loops {α : Type} [DecidableEq α] (s : LoopState α)
    (frame_hash : α) (frame_counter : ℕ) : ℚ × LoopState α :=
  let fh0 := s.frame_history ++ [frame_hash]
  let fh := if FRAME_HISTORY_SIZE < fh0.length then fh0.drop 1 else fh0
  let s1 : LoopState α := { s with frame_history := fh }
  let visual_loop_penalty := detect_visual_loops fh
  let movement_loop_penalty : ℚ := 0
  let reward := visual_loop_penalty + movement_loop_penalty
  if visual_loop_penalty < 0 ∨ movement_loop_penalty < 0 then
    let s2 : LoopState α :=
      { s1 with consecutive_loops := s1.consecutive_loops + 1,
                last_loop_detection := frame_counter }
    if MAX_CONSECUTIVE_LOOPS < s2.consecutive_loops then
      let esc := min (s2.loop_penalty_escalation + 1/10) 1
      (reward - esc, { s2 with loop_penalty_escalation := esc })
    else
      (reward, s2)
  else
    if 50 < frame_counter - s1.last_loop_detection then
      (reward,
        { s1 with consecutive_loops := max 0 (s1.consecutive_loops - 1),
                  loop_penalty_escalation :=
                    max 0 (s1.loop_penalty_escalation - 1/20) })
    else
      (reward, s1)

/-- `len(set(recent_actions)) == 1`: the list is non-empty and all its
elements are identical. -/
def distinctCountOne : List ℕ → Bool
  | [] => false
  | a :: rest => rest.all (· == a)

/-- `LoopDetector.track_action`: push the action into the bounded history;
once it holds at least `ACTION_LOOP_THRESHOLD = 4` actions, return the
fixed −0.2 penalty whenever the most recent 4 actions are all identical.
(The `frame_counter` parameter of the source only gates logging.) -/
def track_action {α : Type} (s : LoopState α) (action : ℕ)
    (_frame_counter : ℕ) : ℚ × LoopState α :=
  let ra0 := s.recent_actions ++ [action]
  let ra := if ACTION_HISTORY_SIZE < ra0.length then ra0.drop 1 else ra0
  let s1 : LoopState α := { s with recent_actions := ra }
  if ACTION_LOOP_THRESHOLD ≤ ra.length then
    let recent_actions := ra.drop (ra.length - ACTION_LOOP_THRESHOLD)
    if distinctCountOne recent_actions then (-(1/5), s1) else (0, s1)
  else (0, s1)

/-- **C5.** Visual-loop detector thresholds, for any frame history long
enough to fill the 8-entry recent sub-window: if some fingerprint occurs
at least 3 times in the window, the detector returns a strictly negative
score; if the maximum repeat count reaches 4 or more, an additional larger
penalty is included (total at most −0.8); and if no fingerprint occurs more
than twice and no A-B-A-B alternation is present, the detector contributes
exactly zero. -/
theorem visual_loop_window_thresholds {α : Type} [DecidableEq α]
    (frame_history : List α)
    (hlen : LOOP_DETECTION_WINDOW ≤ frame_history.length) :
    (3 ≤ maxRepeats (frame_history.drop
        (frame_history.length - LOOP_DETECTION_WINDOW)) →
      detect_visual_loops frame_history < 0) ∧
    (4 ≤ maxRepeats (frame_history.drop
        (frame_history.length - LOOP_DETECTION_WINDOW)) →
      detect_visual_loops frame_history ≤ -(4/5)) ∧
    (maxRepeats (frame_history.drop
        (frame_history.length - LOOP_DETECTION_WINDOW)) ≤ 2 ∧
     altPattern (frame_history.drop
        (frame_history.length - LOOP_DETECTION_WINDOW)) = false →
      detect_visual_loops frame_history = 0) := by
  simp only [detect_visual_loops, if_pos hlen]
  set recent := frame_history.drop (frame_history.length - LOOP_DETECTION_WINDOW)
    with hrecent
  have haltpen : (if 4 ≤ recent.length ∧ altPattern recent
      then -(1/5 : ℚ) else 0) ≤ 0 := by
    split_ifs <;> norm_num
  refine ⟨?_, ?_, ?_⟩
  · intro h3
    rw [if_pos h3]
    split_ifs <;> linarith
  · intro h4
    rw [if_pos (by omega : 3 ≤ maxRepeats recent), if_pos h4]
    linarith
  · rintro ⟨hle, halt⟩
    have h1 : ¬ 3 ≤ maxRepeats recent := by omega
    have h2 : ¬ (4 ≤ recent.length ∧ altPattern recent) := by
      rintro ⟨-, h⟩
      rw [halt] at h
      exact absurd h (by decide)
    rw [if_neg h1, if_neg h2, add_zero]

/-- Witness for C5: a fingerprint repeated 3× in the 8-window scores
negatively, one repeated 4× scores at most −0.8, and a window with no
fingerprint more than twice and no alternation scores exactly 0. -/
theorem visual_loop_window_thresholds_witness :
    detect_visual_loops [7, 7, 7, 1, 2, 3, 4, 5] < 0 ∧
    detect_visual_loops [7, 7, 7, 7, 1, 2, 3, 4] ≤ -(4/5) ∧
    detect_visual_loops [7, 7, 1, 2, 3, 4, 5, 6] = 0 :=
  ⟨(visual_loop_window_thresholds [7, 7, 7, 1, 2, 3, 4, 5] (by decide)).1
      (by decide),
   (visual_loop_window_thresholds [7, 7, 7, 7, 1, 2, 3, 4] (by decide)).2.1
      (by decide),
   (visual_loop_window_thresholds [7, 7, 1, 2, 3, 4, 5, 6] (by decide)).2.2
      (by decide)⟩

/-- `LoopDetector.update_movement_tracking`. -/
def update_movement_tracking {α : Type} (s : LoopState α)
    (movement_magnitude : ℚ) : LoopState α :=
  if movement_magnitude < 1/2 then
    { s with steps_without_movement := s.steps_without_movement + 1 }
  else
    { s with steps_without_movement := 0 }

/-- A fresh detector fed the same action `a` on every call: `actionRun a k`
is the (penalty, state) after the `k`-th call to `track_action`. -/
def actionRun (a : ℕ) : ℕ → ℚ × LoopState ℕ
  | 0 => (0, LoopState.init)
  | k + 1 => track_action (actionRun a k).2 a k

theorem distinctCountOne_replicate (a n : ℕ) :
    distinctCountOne (List.replicate (n + 1) a) = true := by
  rw [List.replicate_succ]
  simp [distinctCountOne, List.all_eq_true, List.eq_of_mem_replicate]

/-- One `track_action` call on a history of `m ≤ 15` copies of the same
action, fed that action again: the penalty fires exactly when `3 ≤ m`, and
the history becomes `min (m+1) 15` copies. -/
theorem track_action_replicate {α : Type} (s : LoopState α) (a m fc : ℕ)
    (hs : s.recent_actions = List.replicate m a) (hm : m ≤ ACTION_HISTORY_SIZE) :
    track_action s a fc =
      ((if 3 ≤ m then -(1/5) else 0),
       { s with recent_actions :=
          List.replicate (min (m + 1) ACTION_HISTORY_SIZE) a }) := by
  have hrep : s.recent_actions ++ [a] = List.replicate (m + 1) a := by
    rw [hs, List.replicate_succ']
  simp only [track_action, hrep, List.length_replicate,
    ACTION_HISTORY_SIZE, ACTION_LOOP_THRESHOLD] at hm ⊢
  by_cases h15 : 15 < m + 1
  · have hm15 : m = 15 := by omega
    subst hm15
    rw [if_pos h15]
    have hd : (List.replicate (15 + 1) a).drop 1 = List.replicate 15 a := by
      rw [List.replicate_succ, List.drop_succ_cons, List.drop_zero]
    rw [hd]
    simp only [List.length_replicate]
    rw [if_pos (by omega : 4 ≤ 15)]
    rw [List.drop_replicate]
    rw [show (15 - (15 - 4) : ℕ) = 3 + 1 by omega, distinctCountOne_replicate]
    simp
  · rw [if_neg h15]
    simp only [List.length_replicate]
    have hmin : min (m + 1) 15 = m + 1 := by omega
    rw [hmin]
    by_cases h4 : 4 ≤ m + 1
    · rw [if_pos h4, List.drop_replicate]
      rw [show (m + 1 - (m + 1 - 4) : ℕ) = 3 + 1 by omega,
        distinctCountOne_replicate]
      rw [if_pos (by omega : 3 ≤ m)]
      simp
    · rw [if_neg h4, if_neg (by omega : ¬ 3 ≤ m)]

theorem actionRun_state (a : ℕ) (k : ℕ) :
    (actionRun a k).2 = { LoopState.init with
      recent_actions := List.replicate (min k ACTION_HISTORY_SIZE) a } := by
  induction k with
  | zero => simp [actionRun, LoopState.init, ACTION_HISTORY_SIZE]
  | succ k ih =>
    rw [actionRun, track_action_replicate _ a (min k ACTION_HISTORY_SIZE) k
      (by rw [ih]) (by omega)]
    have : min (min k ACTION_HISTORY_SIZE + 1) ACTION_HISTORY_SIZE =
        min (k + 1) ACTION_HISTORY_SIZE := by
      simp only [ACTION_HISTORY_SIZE]
      omega
    rw [this, ih]

/-- **C6.** Action-loop detector with threshold `N = ACTION_LOOP_THRESHOLD
= 4`, starting from a fresh detector and repeating the same action on every
call: the first `N − 1 = 3` calls yield no action-loop penalty; the `N`-th
call yields exactly the fixed penalty −0.2; and the penalty continues to
apply on every subsequent call while the most recent `N` actions remain
identical (it is not a one-shot). -/
theorem action_loop_threshold (a : ℕ) (k : ℕ) :
    (actionRun a k).1 = if ACTION_LOOP_THRESHOLD ≤ k then -(1/5) else 0 := by
  cases k with
  | zero => simp [actionRun, ACTION_LOOP_THRESHOLD]
  | succ k =>
    rw [actionRun, track_action_replicate _ a (min k ACTION_HISTORY_SIZE) k
      (by rw [actionRun_state a k]) (by omega)]
    simp only [ACTION_HISTORY_SIZE, ACTION_LOOP_THRESHOLD]
    by_cases h3 : 3 ≤ k
    · rw [if_pos (by omega : 3 ≤ min k 15), if_pos (by omega : 4 ≤ k + 1)]
    · rw [if_neg (by omega : ¬ 3 ≤ min k 15), if_neg (by omega : ¬ 4 ≤ k + 1)]

/-! ### LoopGuard state invariants -/

/-- One external call into the loop detector. -/
inductive LoopOp (α : Type) where
  | detect (frame_hash : α) (frame_counter : ℕ)
  | track (action : ℕ) (frame_counter : ℕ)
  | movement (magnitude : ℚ)
  | reset

/-- Apply one call's state effect. -/
def applyLoopOp {α : Type} [DecidableEq α] (s : LoopState α) :
    LoopOp α → LoopState α
  | .detect h fc => (detect_and_penalize_loops s h fc).2
  | .track a fc => (track_action s a fc).2
  | .movement m => update_movement_tracking s m
  | .reset => LoopState.reset s

/-- The LoopGuard state invariants: non-negative counters, escalation
penalty within [0, 1], bounded history windows. -/
def LoopInv {α : Type} (s : LoopState α) : Prop :=
  0 ≤ s.consecutive_loops ∧
  0 ≤ s.steps_without_movement ∧
  0 ≤ s.loop_penalty_escalation ∧
  s.loop_penalty_escalation ≤ 1 ∧
  s.frame_history.length ≤ FRAME_HISTORY_SIZE ∧
  s.recent_actions.length ≤ ACTION_HISTORY_SIZE

theorem loopInv_init {α : Type} : LoopInv (LoopState.init (α := α)) := by
  refine ⟨le_refl 0, le_refl 0, le_refl 0, ?_, ?_, ?_⟩ <;> norm_num [LoopState.init]

theorem loopInv_preserved {α : Type} [DecidableEq α] (s : LoopState α)
    (op : LoopOp α) (hs : LoopInv s) : LoopInv (applyLoopOp s op) := by
  obtain ⟨h1, h2, h3, h4, h5, h6⟩ := hs
  cases op with
  | detect h fc =>
    simp only [applyLoopOp, detect_and_penalize_loops, LoopInv]
    split_ifs <;>
      refine ⟨?_, ?_, ?_, ?_, ?_, ?_⟩ <;> dsimp only <;>
      first
        | exact h2
        | exact h3
        | exact h4
        | exact h5
        | exact h6
        | omega
        | exact min_le_right _ _
        | exact le_max_left _ _
        | exact le_min (by linarith) (by norm_num)
        | exact max_le (by norm_num) (by linarith)
        | (simp only [List.length_drop, List.length_append, List.length_cons,
            List.length_nil] at h5 ⊢; omega)
  | track a fc =>
    simp only [applyLoopOp, track_action, LoopInv]
    by_cases htrim : ACTION_HISTORY_SIZE < (s.recent_actions ++ [a]).length
    · rw [if_pos htrim]
      have hlen : (List.drop 1 (s.recent_actions ++ [a])).length ≤
          ACTION_HISTORY_SIZE := by
        simp only [List.length_drop, List.length_append, List.length_cons,
          List.length_nil] at htrim ⊢
        omega
      split_ifs <;> exact ⟨h1, h2, h3, h4, h5, hlen⟩
    · rw [if_neg htrim]
      have hlen : (s.recent_actions ++ [a]).length ≤ ACTION_HISTORY_SIZE := by
        omega
      split_ifs <;> exact ⟨h1, h2, h3, h4, h5, hlen⟩
  | movement m =>
    simp only [applyLoopOp, update_movement_tracking, LoopInv]
    split_ifs <;>
      refine ⟨?_, ?_, ?_, ?_, ?_, ?_⟩ <;> dsimp only <;>
      first
        | exact h1
        | exact h3
        | exact h4
        | exact h5
        | exact h6
        | omega
  | reset => exact loopInv_init

/-- **C9.** LoopGuard state invariants hold after every call for every
input sequence: starting from the freshly constructed detector and applying
any sequence of `detect_and_penalize_loops`, `track_action`,
`update_movement_tracking` and `reset` calls, the consecutive-loop counter
and the steps-without-movement counter stay ≥ 0, the escalation penalty
stays within [0, 1], and the frame/action history windows never exceed
their maximum lengths (20 and 15). -/
theorem loop_detector_invariants {α : Type} [DecidableEq α]
    (ops : List (LoopOp α)) :
    LoopInv (ops.foldl applyLoopOp LoopState.init) := by
  suffices h : ∀ s : LoopState α, LoopInv s → LoopInv (ops.foldl applyLoopOp s) from
    h _ loopInv_init
  induction ops with
  | nil => exact fun s hs => hs
  | cons op rest ih =>
    exact fun s hs => ih _ (loopInv_preserved s op hs)

/-! ## RewardEngine (src/reward_system.py)

The observation handed to `compute_reward` is the 192 × 256 × 3 top-screen
image (`top_screen` in `pokemon_environment.py`).  It is modelled as a total
function (row, column, channel) ↦ byte value; only indices inside the
observation shape are ever read.  `np.mean`/`np.var` (population variance)
are exact rational arithmetic here; `np.diff` on the `uint8` observation
wraps modulo 256, and `np.abs` on unsigned bytes is the identity, which the
horizontal-edge indicator reproduces.  Python `hash` of the downsampled
area sample is modelled by the sample content itself (hashes are only ever
compared for equality / set membership). -/

def Obs : Type := ℕ → ℕ → ℕ → ℕ

/-- Index set of an image region: rows `r0 ≤ r < r1`, columns
`c0 ≤ c < c1`, all 3 channels. -/
def region (r0 r1 c0 c1 : ℕ) : Finset (ℕ × ℕ × ℕ) :=
  (Finset.Ico r0 r1) ×ˢ (Finset.Ico c0 c1) ×ˢ (Finset.range 3)

/-- The byte at an index triple, as a rational. -/
def pix (o : Obs) (p : ℕ × ℕ × ℕ) : ℚ := o p.1 p.2.1 p.2.2

/-- `np.mean` over a region. -/
def regionMean (o : Obs) (R : Finset (ℕ × ℕ × ℕ)) : ℚ :=
  (∑ p ∈ R, pix o p) / R.card

/-- `np.var` (population variance) over a region. -/
def regionVar (o : Obs) (R : Finset (ℕ × ℕ × ℕ)) : ℚ :=
  (∑ p ∈ R, (pix o p - regionMean o R) ^ 2) / R.card

/-- The whole observation, `obs[:, :]`. -/
def fullRegion : Finset (ℕ × ℕ × ℕ) := region 0 TOP_SCREEN_HEIGHT 0 IMAGE_WIDTH

/-- `np.mean(np.abs(obs.astype(np.float32) - last.astype(np.float32)))`. -/
def meanAbsDiff (a b : Obs) : ℚ :=
  (∑ p ∈ fullRegion, |pix a p - pix b p|) / fullRegion.card

/-- `obs[0:50, :]`. -/
def topArea : Finset (ℕ × ℕ × ℕ) := region 0 50 0 IMAGE_WIDTH

/-- `obs[60:130, :]`. -/
def centerArea : Finset (ℕ × ℕ × ℕ) := region 60 130 0 IMAGE_WIDTH

/-- `obs[140:, :]`. -/
def bottomArea : Finset (ℕ × ℕ × ℕ) := region 140 TOP_SCREEN_HEIGHT 0 IMAGE_WIDTH

/-- `len(np.unique(obs.reshape(-1, 3), axis=0))`: the number of distinct
(r, g, b) colour triples among the pixels. -/
def uniqueColors (o : Obs) : ℕ :=
  (((Finset.Ico 0 TOP_SCREEN_HEIGHT) ×ˢ (Finset.Ico 0 IMAGE_WIDTH)).image
    (fun rc : ℕ × ℕ => (o rc.1 rc.2 0, o rc.1 rc.2 1, o rc.1 rc.2 2))).card

/-- `np.sum(np.abs(np.diff(obs, axis=0)))` on the `uint8` observation:
differences wrap modulo 256 and `np.abs` is the identity on the result. -/
def horizontalEdges (o : Obs) : ℕ :=
  ∑ p ∈ region 0 (TOP_SCREEN_HEIGHT - 1) 0 IMAGE_WIDTH,
    (o (p.1 + 1) p.2.1 p.2.2 + 256 - o p.1 p.2.1 p.2.2) % 256

/-- The five menu indicators of
`PokemonRewardSystem._analyze_menu_state`. -/
def menuIndicators (o : Obs) : ℕ :=
  (if regionVar o centerArea < 200 then 1 else 0) +
  (if 800 < regionVar o topArea ∨ 800 < regionVar o bottomArea then 1 else 0) +
  (if 120 < regionMean o fullRegion then 1 else 0) +
  (if uniqueColors o < 50 then 1 else 0) +
  (if 200000 < horizontalEdges o then 1 else 0)

/-- `PokemonRewardSystem._analyze_menu_state`: a menu iff at least 3 of the
5 indicators fire. -/
def analyze_menu_state (o : Obs) : Bool := decide (3 ≤ menuIndicators o)

/-- `obs[60:130, 40:216]`, the battle test area. -/
def battleArea : Finset (ℕ × ℕ × ℕ) := region 60 130 40 216

/-- The battle-likeness test of
`PokemonRewardSystem._detect_potential_battles`:
`avg_brightness < 60 and color_variance > 800`. -/
def battleLike (o : Obs) : Bool :=
  decide (regionMean o battleArea < 60 ∧ 800 < regionVar o battleArea)

/-- The downsampled central-area sample
`obs[70:150, 70:186][::6, ::6]` (rows 70, 76, …, 148; columns 70, 76, …,
184), serialized row-major as `tobytes` does; its Python `hash` is
modelled by the sample content itself. -/
def areaFingerprint (o : Obs) : List ℕ :=
  (List.range 14).flatMap fun i =>
    (List.range 20).flatMap fun j =>
      (List.range 3).map fun ch => o (70 + 6 * i) (70 + 6 * j) ch

/-- The state of `PokemonRewardSystem` that its scoring sub-detectors read
or write.  The battle/progression counters of the source
(`_battle_start_frame`, `_wild_encounter_detected`, `_pokemon_caught_count`,
`_shiny_encounters`, `_level_ups_detected`, `_item_found_count`,
`_new_route_bonus`, `_battle_menu_state`, `_overworld_state`) are never read
by any detector and are not modelled. -/
structure RewardState where
  last_obs : Option Obs
  visited_areas : Finset (List ℕ)
  steps_without_movement : ℕ
  last_battle_state : Bool
  menu_state : Bool
  menu_frames_count : ℕ

/-- `PokemonRewardSystem.__init__`. -/
def RewardState.init : RewardState :=
  { last_obs := none, visited_areas := ∅, steps_without_movement := 0,
    last_battle_state := false, menu_state := false, menu_frames_count := 0 }

/-- `PokemonRewardSystem.reset` (the cumulative session counters it keeps
are among the unread fields not modelled here). -/
def RewardState.reset (_s : RewardState) : RewardState := RewardState.init

/-- Body of `PokemonRewardSystem._detect_menu_states_and_escape` after its
first line, in terms of the already computed local
`current_menu_state = self._analyze_menu_state(obs)`. -/
def menuStep (s : RewardState) (current_menu_state : Bool) :
    ℚ × RewardState :=
  if current_menu_state ∧ ¬ s.menu_state then
    -- just entered a menu
    (-(1/10), { s with menu_frames_count := 0, menu_state := current_menu_state })
  else if ¬ current_menu_state ∧ s.menu_state then
    -- escaped a menu
    (1/2, { s with menu_state := current_menu_state })
  else if current_menu_state then
    -- still in a menu: escalating penalties
    let mfc := s.menu_frames_count + 1
    ((if 50 < mfc then -(1/5) else 0) +
     (if 150 < mfc then -(2/5) else 0) +
     (if 300 < mfc then -(3/5) else 0),
     { s with menu_frames_count := mfc, menu_state := current_menu_state })
  else
    (0, { s with menu_state := current_menu_state })

/-- `PokemonRewardSystem._detect_menu_states_and_escape`. -/
def detect_menu_states_and_escape (s : RewardState) (obs : Obs) :
    ℚ × RewardState :=
  menuStep s (analyze_menu_state obs)

/-- Body of `PokemonRewardSystem._detect_movement_and_exploration` in terms
of the computed locals `movement_amount` (the mean absolute frame
difference) and `area_hash` (the central-area fingerprint, computed in the
source inside the movement branch — it is pure, so lifting it out is
behaviourally identical). -/
def movementStep (s : RewardState) (movement_amount : ℚ)
    (area_hash : List ℕ) : ℚ × RewardState :=
  if 2 < movement_amount ∧ ¬ s.menu_state then
    let s1 := { s with steps_without_movement := 0 }
    if area_hash ∉ s1.visited_areas then
      (1/5 + 4/5,
        { s1 with visited_areas := insert area_hash s1.visited_areas })
    else
      (1/5, s1)
  else if 2 < movement_amount ∧ s.menu_state then
    (1/50, s)
  else if ¬ s.menu_state then
    (0, { s with steps_without_movement := s.steps_without_movement + 1 })
  else
    (0, s)

/-- `PokemonRewardSystem._detect_movement_and_exploration`; `last` is
`self._last_obs`, non-`None` whenever `compute_reward` calls this. -/
def detect_movement_and_exploration (s : RewardState) (last obs : Obs) :
    ℚ × RewardState :=
  movementStep s (meanAbsDiff obs last) (areaFingerprint obs)

/-- Body of `PokemonRewardSystem._detect_screen_transitions` in terms of
the computed local `total_diff`. -/
def transitionStep (total_diff : ℚ) : ℚ :=
  if 25 < total_diff then 1 else 0

/-- `PokemonRewardSystem._detect_screen_transitions` (its
`last_obs is not None` guard is already ensured by `compute_reward`). -/
def detect_screen_transitions (last obs : Obs) : ℚ :=
  transitionStep (meanAbsDiff obs last)

/-- Body of `PokemonRewardSystem._detect_potential_battles` in terms of the
computed local `current_battle_state`. -/
def battleStep (s : RewardState) (current_battle_state : Bool) :
    ℚ × RewardState :=
  ((if current_battle_state ∧ current_battle_state ≠ s.last_battle_state
      then 3/10 else 0),
   { s with last_battle_state := current_battle_state })

/-- `PokemonRewardSystem._detect_potential_battles`. -/
def detect_potential_battles (s : RewardState) (obs : Obs) :
    ℚ × RewardState :=
  battleStep s (battleLike obs)

/-- Body of `PokemonRewardSystem._apply_idle_penalty` in terms of the
computed local `movement_diff`. -/
def idleStep (s : RewardState) (movement_diff : ℚ) : ℚ × RewardState :=
  if movement_diff < 3/2 then
    let steps := s.steps_without_movement + 1
    ((if MAX_STEPS_STILL < steps then
        if steps < MAX_STEPS_STILL + 100 then -(1/20) else -(1/10)
      else 0),
     { s with steps_without_movement := steps })
  else
    (0, s)

/-- `PokemonRewardSystem._apply_idle_penalty`. -/
def apply_idle_penalty (s : RewardState) (last obs : Obs) :
    ℚ × RewardState :=
  idleStep s (meanAbsDiff obs last)

/-- The scored branch of `PokemonRewardSystem.compute_reward` in terms of
the per-frame signals: the five sub-detectors run in order, each reading
the state left by the previous one, and the observation is stored for the
next call.  `current_menu` is `_analyze_menu_state(obs)`, `d` the mean
absolute frame difference (the identical expression is computed by the
movement, transition and idle detectors), `fp` the central-area
fingerprint, and `battle` the battle-likeness of `obs`. -/
def computeStep (s : RewardState) (obs : Obs) (current_menu : Bool)
    (d : ℚ) (fp : List ℕ) (battle : Bool) : ℚ × RewardState :=
  let m := menuStep s current_menu
  let mv := movementStep m.2 d fp
  let tr := transitionStep d
  let bt := battleStep mv.2 battle
  let idl := idleStep bt.2 d
  (m.1 + mv.1 + tr + bt.1 + idl.1, { idl.2 with last_obs := some obs })

/-- `PokemonRewardSystem.compute_reward`: on the first call (no stored
previous observation) no detector runs, the reward is 0.0 and the
observation is only stored; otherwise the scored branch runs. -/
def compute_reward (s : RewardState) (obs : Obs) : ℚ × RewardState :=
  match s.last_obs with
  | none => (0, { s with last_obs := some obs })
  | some last =>
    computeStep s obs (analyze_menu_state obs) (meanAbsDiff obs last)
      (areaFingerprint obs) (battleLike obs)

/-! ### Evaluation of the image heuristics on constant frames

Used to instantiate the theorems on concrete scripted frames: the all-zero
(black) frame has zero variance, zero movement difference, one unique
colour and no edges, so exactly 2 of the 5 menu indicators fire and it is
classified as overworld (not menu), and it is not battle-like. -/

/-- The constant frame with every byte equal to `v`. -/
def constObs (v : ℕ) : Obs := fun _ _ _ => v

/-- The all-zero (black) frame. -/
def obs0 : Obs := constObs 0

theorem fullRegion_card : fullRegion.card = 147456 := by
  simp [fullRegion, region, TOP_SCREEN_HEIGHT, IMAGE_WIDTH, Nat.card_Ico]

theorem regionMean_obs0 (R : Finset (ℕ × ℕ × ℕ)) : regionMean obs0 R = 0 := by
  simp [regionMean, pix, obs0, constObs]

theorem regionVar_obs0 (R : Finset (ℕ × ℕ × ℕ)) : regionVar obs0 R = 0 := by
  have h : ∀ p ∈ R, (pix obs0 p - regionMean obs0 R) ^ 2 = 0 := by
    intro p _
    rw [regionMean_obs0]
    simp [pix, obs0, constObs]
  rw [regionVar, Finset.sum_congr rfl h]
  simp

theorem meanAbsDiff_obs0 : meanAbsDiff obs0 obs0 = 0 := by
  simp [meanAbsDiff, pix, obs0, constObs]

theorem meanAbsDiff_const (va vb : ℕ) :
    meanAbsDiff (constObs va) (constObs vb) = |(va : ℚ) - vb| := by
  simp only [meanAbsDiff, pix, constObs, Finset.sum_const, fullRegion_card,
    nsmul_eq_mul]
  norm_num

theorem uniqueColors_const (v : ℕ) : uniqueColors (constObs v) = 1 := by
  have hne : ((Finset.Ico 0 TOP_SCREEN_HEIGHT) ×ˢ
      (Finset.Ico 0 IMAGE_WIDTH)).Nonempty := by
    refine ⟨(0, 0), ?_⟩
    simp [Finset.mem_product, TOP_SCREEN_HEIGHT, IMAGE_WIDTH]
  simp only [uniqueColors, constObs]
  rw [Finset.image_const hne]
  exact Finset.card_singleton _

theorem horizontalEdges_const (v : ℕ) : horizontalEdges (constObs v) = 0 := by
  simp [horizontalEdges, constObs]

theorem uniqueColors_obs0 : uniqueColors obs0 = 1 :=
  uniqueColors_const 0

theorem horizontalEdges_obs0 : horizontalEdges obs0 = 0 :=
  horizontalEdges_const 0

theorem analyze_menu_state_obs0 : analyze_menu_state obs0 = false := by
  have h : menuIndicators obs0 = 2 := by
    rw [menuIndicators, regionVar_obs0, regionVar_obs0, regionVar_obs0,
      regionMean_obs0, uniqueColors_obs0, horizontalEdges_obs0]
    norm_num
  show decide (3 ≤ menuIndicators obs0) = false
  rw [decide_eq_false_iff_not, h]
  omega

theorem battleLike_obs0 : battleLike obs0 = false := by
  show decide (regionMean obs0 battleArea < 60 ∧
    800 < regionVar obs0 battleArea) = false
  rw [decide_eq_false_iff_not, regionMean_obs0, regionVar_obs0]
  norm_num

theorem meanAbsDiff_const10_obs0 : meanAbsDiff (constObs 10) obs0 = 10 := by
  have h := meanAbsDiff_const 10 0
  norm_num at h
  exact h

/-! ### Per-detector state-field facts -/

theorem menuStep_visited (s : RewardState) (b : Bool) :
    (menuStep s b).2.visited_areas = s.visited_areas := by
  simp only [menuStep]
  split_ifs <;> rfl

theorem movementStep_visited_subset (s : RewardState) (d : ℚ)
    (h : List ℕ) :
    s.visited_areas ⊆ (movementStep s d h).2.visited_areas := by
  simp only [movementStep]
  split_ifs <;>
    first
      | exact Finset.Subset.refl _
      | exact Finset.subset_insert _ _

theorem battleStep_visited (s : RewardState) (b : Bool) :
    (battleStep s b).2.visited_areas = s.visited_areas := rfl

theorem idleStep_visited (s : RewardState) (d : ℚ) :
    (idleStep s d).2.visited_areas = s.visited_areas := by
  simp only [idleStep]
  split_ifs <;> rfl

theorem computeStep_visited_subset (s : RewardState) (obs : Obs)
    (b : Bool) (d : ℚ) (fp : List ℕ) (battle : Bool) :
    s.visited_areas ⊆ (computeStep s obs b d fp battle).2.visited_areas := by
  simp only [computeStep, idleStep_visited, battleStep_visited]
  refine subset_trans ?_ (movementStep_visited_subset _ _ _)
  rw [menuStep_visited]

/-- The scored-branch equation of `compute_reward`. -/
theorem compute_reward_some (s : RewardState) (last : Obs)
    (hs : s.last_obs = some last) (obs : Obs) :
    compute_reward s obs =
      computeStep s obs (analyze_menu_state obs) (meanAbsDiff obs last)
        (areaFingerprint obs) (battleLike obs) := by
  obtain ⟨lo, va, sm, bs, ms, mfc⟩ := s
  dsimp only at hs
  subst hs
  rfl

/-- The first-call equation of `compute_reward`. -/
theorem compute_reward_none (s : RewardState) (hs : s.last_obs = none)
    (obs : Obs) :
    compute_reward s obs = (0, { s with last_obs := some obs }) := by
  obtain ⟨lo, va, sm, bs, ms, mfc⟩ := s
  dsimp only at hs
  subst hs
  rfl

/-- **C7.** The exploration bonus is one-shot per fingerprint:
(1) the first step observing a never-before-seen central-region fingerprint,
with sufficient movement and outside menu state, yields the movement bonus
plus the exploration bonus (0.2 + 0.8 = 1.0) and records the fingerprint in
the visited set; (2) any step observing a fingerprint already in the
visited set yields at most the plain movement bonus 0.2 — never the
exploration bonus — and leaves the visited set unchanged; (3) across any
`compute_reward` call the visited set never shrinks; (4) only an explicit
reset clears the set. -/
theorem exploration_bonus_one_shot :
    (∀ (s : RewardState) (last obs : Obs),
      2 < meanAbsDiff obs last → s.menu_state = false →
      areaFingerprint obs ∉ s.visited_areas →
      detect_movement_and_exploration s last obs =
        (1, { s with
              steps_without_movement := 0
              visited_areas :=
                insert (areaFingerprint obs) s.visited_areas })) ∧
    (∀ (s : RewardState) (last obs : Obs),
      areaFingerprint obs ∈ s.visited_areas →
      (detect_movement_and_exploration s last obs).1 ≤ 1/5 ∧
      (detect_movement_and_exploration s last obs).2.visited_areas =
        s.visited_areas) ∧
    (∀ (s : RewardState) (obs : Obs),
      s.visited_areas ⊆ (compute_reward s obs).2.visited_areas) ∧
    (∀ s : RewardState, (RewardState.reset s).visited_areas = ∅) := by
  refine ⟨?_, ?_, ?_, fun s => rfl⟩
  · intro s last obs h2 hm hnew
    have hms : ¬ (s.menu_state = true) := by simp [hm]
    simp only [detect_movement_and_exploration, movementStep]
    rw [if_pos ⟨h2, hms⟩, if_pos hnew]
    norm_num
  · intro s last obs hseen
    simp only [detect_movement_and_exploration, movementStep]
    split_ifs <;>
      first
        | exact absurd hseen (by assumption)
        | exact ⟨by norm_num, rfl⟩
  · intro s obs
    cases hlo : s.last_obs with
    | none =>
      rw [compute_reward_none s hlo]
    | some last =>
      rw [compute_reward_some s last hlo]
      exact computeStep_visited_subset _ _ _ _ _ _

/-- Witness for C7: a fresh engine fed black-frame-to-bright-frame movement
(mean difference 10 > 2) discovers the bright frame's fingerprint (reward
1.0, fingerprint recorded); once that fingerprint is in the visited set,
the same observation earns at most the 0.2 movement bonus. -/
theorem exploration_bonus_one_shot_witness :
    detect_movement_and_exploration RewardState.init obs0 (constObs 10) =
      (1, { RewardState.init with
            steps_without_movement := 0
            visited_areas := insert (areaFingerprint (constObs 10))
              RewardState.init.visited_areas }) ∧
    (detect_movement_and_exploration
        { RewardState.init with
          visited_areas := {areaFingerprint (constObs 10)} }
        obs0 (constObs 10)).1 ≤ 1/5 :=
  ⟨exploration_bonus_one_shot.1 RewardState.init obs0 (constObs 10)
      (by rw [meanAbsDiff_const10_obs0]; norm_num) rfl
      (Finset.not_mem_empty _),
   (exploration_bonus_one_shot.2.1
      { RewardState.init with
        visited_areas := {areaFingerprint (constObs 10)} }
      obs0 (constObs 10) (Finset.mem_singleton_self _)).1⟩

/-- **C10.** On the first call to `compute_reward` after construction or
after a reset — i.e. whenever no previous observation is stored — the
returned reward is exactly 0.0 and the only state change is that the
current observation is stored as the previous observation; both the
freshly constructed state and the state after any reset indeed store no
previous observation. -/
theorem first_call_returns_zero :
    (∀ (s : RewardState) (obs : Obs), s.last_obs = none →
      compute_reward s obs = (0, { s with last_obs := some obs })) ∧
    RewardState.init.last_obs = none ∧
    (∀ s : RewardState, (RewardState.reset s).last_obs = none) := by
  refine ⟨?_, rfl, fun s => rfl⟩
  intro s obs h
  obtain ⟨lo, va, sm, bs, ms, mfc⟩ := s
  dsimp only at h
  subst h
  rfl

/-- Witness for C10: the freshly constructed engine returns reward 0 on its
first observation and only stores it. -/
theorem first_call_returns_zero_witness :
    compute_reward RewardState.init obs0 =
      (0, { RewardState.init with last_obs := some obs0 }) :=
  first_call_returns_zero.1 RewardState.init obs0 rfl

/-! ### The idle-penalty schedule on a still overworld frame sequence

Note the shared counter: `_steps_without_movement` is incremented by
`_detect_movement_and_exploration` (no movement, outside menu) *and* again
by `_apply_idle_penalty` (difference below 1.5) in the same
`compute_reward` call, so on a still non-menu frame it advances by 2 per
scored step. -/

theorem menuStep_menu (s : RewardState) (b : Bool) :
    (menuStep s b).2.menu_state = b := by
  simp only [menuStep]
  split_ifs <;> rfl

theorem menuStep_steps (s : RewardState) (b : Bool) :
    (menuStep s b).2.steps_without_movement = s.steps_without_movement := by
  simp only [menuStep]
  split_ifs <;> rfl

/-- A non-menu frame seen from a non-menu state: no reward, only the menu
flag (re)written. -/
theorem menuStep_overworld (s : RewardState) (hm : s.menu_state = false) :
    menuStep s false = (0, { s with menu_state := false }) := by
  simp [menuStep, hm]

/-- A still frame outside menus: no reward, counter incremented once. -/
theorem movementStep_still (s : RewardState) (d : ℚ) (fp : List ℕ)
    (hm : s.menu_state = false) (hd : d < 3/2) :
    movementStep s d fp =
      (0, { s with steps_without_movement :=
        s.steps_without_movement + 1 }) := by
  have h2 : ¬ (2 < d) := by linarith
  simp [movementStep, hm, h2]

theorem movementStep_steps_still (s : RewardState) (d : ℚ) (fp : List ℕ)
    (hm : s.menu_state = false) (hd : d < 3/2) :
    (movementStep s d fp).2.steps_without_movement =
      s.steps_without_movement + 1 := by
  rw [movementStep_still s d fp hm hd]

theorem battleStep_steps (s : RewardState) (b : Bool) :
    (battleStep s b).2.steps_without_movement = s.steps_without_movement :=
  rfl

/-- A non-battle-like frame: no reward, battle flag written. -/
theorem battleStep_false (s : RewardState) :
    battleStep s false = (0, { s with last_battle_state := false }) := by
  simp [battleStep]

/-- A still frame: the idle branch runs, incrementing the counter once and
charging the threshold-scheduled penalty. -/
theorem idleStep_still (s : RewardState) (d : ℚ) (hd : d < 3/2) :
    idleStep s d =
      ((if MAX_STEPS_STILL < s.steps_without_movement + 1 then
          if s.steps_without_movement + 1 < MAX_STEPS_STILL + 100
          then -(1/20) else -(1/10)
        else 0),
       { s with steps_without_movement :=
          s.steps_without_movement + 1 }) := by
  simp only [idleStep]
  rw [if_pos hd]

theorem idleStep_steps (s : RewardState) (d : ℚ) (hd : d < 3/2) :
    (idleStep s d).2.steps_without_movement =
      s.steps_without_movement + 1 := by
  rw [idleStep_still s d hd]

theorem transitionStep_still (d : ℚ) (hd : d < 3/2) :
    transitionStep d = 0 := by
  simp only [transitionStep]
  rw [if_neg (by linarith)]

/-- The fresh engine fed the identical all-black frame on every call:
`idleRun k` is (reward, state) after the `k`-th `compute_reward` call. -/
def idleRun : ℕ → ℚ × RewardState
  | 0 => (0, RewardState.init)
  | k + 1 => compute_reward (idleRun k).2 obs0

/-- One scored still, non-menu step: both the movement detector and the
idle penalty increment the shared counter, so it advances by 2, and the
idle penalty is charged against the twice-advanced counter. -/
theorem computeStep_obs0_sim (va : Finset (List ℕ)) (m mfc : ℕ)
    (fp : List ℕ) :
    computeStep ⟨some obs0, va, m, false, false, mfc⟩ obs0 false 0 fp false =
      ((if MAX_STEPS_STILL < m + 2 then
          if m + 2 < MAX_STEPS_STILL + 100 then -(1/20) else -(1/10)
        else 0 : ℚ),
       ⟨some obs0, va, m + 2, false, false, mfc⟩) := by
  simp only [computeStep]
  rw [menuStep_overworld _ rfl]
  dsimp only
  rw [movementStep_still _ 0 fp rfl (by norm_num)]
  dsimp only
  rw [battleStep_false]
  dsimp only
  rw [idleStep_still _ 0 (by norm_num), transitionStep_still 0 (by norm_num)]
  dsimp only
  norm_num

/-- State and reward after the `(n+1)`-th call on the constant black frame:
the first call is unscored; thereafter the counter is `2n` and the idle
penalty is `0` until the counter exceeds 150, `−0.05` while it is below
250, and `−0.1` from 250 on. -/
theorem idleRun_spec (n : ℕ) :
    idleRun (n + 1) =
      ((if MAX_STEPS_STILL < 2 * n then
          if 2 * n < MAX_STEPS_STILL + 100 then -(1/20) else -(1/10)
        else 0 : ℚ),
       ⟨some obs0, ∅, 2 * n, false, false, 0⟩) := by
  induction n with
  | zero =>
    show compute_reward (idleRun 0).2 obs0 = _
    rw [show (idleRun 0).2 = RewardState.init from rfl,
      compute_reward_none _ rfl]
    norm_num [MAX_STEPS_STILL]
    exact ⟨rfl, rfl, rfl, rfl, rfl⟩
  | succ n ih =>
    show compute_reward (idleRun (n + 1)).2 obs0 = _
    rw [ih]
    dsimp only
    rw [compute_reward_some _ obs0 rfl obs0, analyze_menu_state_obs0,
      meanAbsDiff_obs0, battleLike_obs0, computeStep_obs0_sim]
    have h2 : 2 * n + 2 = 2 * (n + 1) := by ring
    rw [h2]

/-- Counterexample to C4 as stated: on a scripted sequence of identical
black frames (frame difference 0, classified overworld), the idle counter
advances by 2 — not 1 — per scored step, and the −0.05 idle penalty is
already charged at scored step 76 (counter 152), far below the claimed
crossing at step count 150. -/
theorem idle_counter_counterexample :
    (idleRun 2).2.steps_without_movement = 2 ∧
    (idleRun 77).1 = -(1/20) := by
  constructor
  · rw [show (2:ℕ) = 1 + 1 from rfl, idleRun_spec 1]
  · rw [show (77:ℕ) = 76 + 1 from rfl, idleRun_spec 76]
    norm_num [MAX_STEPS_STILL]

/-- **C4 (amended).** On every scored step whose frame-to-frame difference
is below the low threshold 1.5 and which is outside menu state, the idle
counter is incremented twice — once by the movement detector and once by
the idle penalty — so a scripted sequence of identical black frames
reaches the penalty regime at scored step 76 (counter 152 > 150): the
reward is 0 while the counter is at most 150, −0.05 once it exceeds 150
(scored steps 76–124) and −0.1 once it reaches 250 (scored step 125 on),
the larger penalty being strictly larger in magnitude. -/
theorem idle_penalty_schedule_amended :
    (∀ (s : RewardState) (last obs : Obs),
      s.last_obs = some last → s.menu_state = false →
      analyze_menu_state obs = false → meanAbsDiff obs last < 3/2 →
      (compute_reward s obs).2.steps_without_movement =
        s.steps_without_movement + 2) ∧
    (∀ n : ℕ,
      (idleRun (n + 1)).1 =
        (if 150 < 2 * n then
          if 2 * n < 250 then -(1/20) else -(1/10)
        else 0 : ℚ) ∧
      (idleRun (n + 1)).2.steps_without_movement = 2 * n) := by
  constructor
  · intro s last obs hlast hm hmenu hd
    rw [compute_reward_some s last hlast, hmenu]
    simp only [computeStep]
    rw [idleStep_steps _ _ hd, battleStep_steps,
      movementStep_steps_still _ _ _ (by rw [menuStep_menu]) hd,
      menuStep_steps]
  · intro n
    rw [idleRun_spec n]
    norm_num [MAX_STEPS_STILL]

/-- Witness for the amended C4: a stored non-menu still state with counter
5 advances to 7 in one scored step, and at scored step 130 (call 131) the
idle penalty is the larger −0.1. -/
theorem idle_penalty_schedule_amended_witness :
    (compute_reward ⟨some obs0, ∅, 5, false, false, 0⟩
        obs0).2.steps_without_movement = 7 ∧
    (idleRun 131).1 = -(1/10) := by
  constructor
  · have h := idle_penalty_schedule_amended.1
      ⟨some obs0, ∅, 5, false, false, 0⟩ obs0 obs0 rfl rfl
      analyze_menu_state_obs0 (by rw [meanAbsDiff_obs0]; norm_num)
    rw [h]
  · have h := (idle_penalty_schedule_amended.2 130).1
    norm_num at h
    exact h

end PokemonRel
